import Mathlib

/-!
Verification of the operator-assembly core of a divergence-free nonconforming
virtual element space on 2-D polygonal meshes, together with a scalar mass
integrator.  The Lean definitions below are shallow embeddings of the Python
source (`ReducedDivFreeNonConformingVirtualElementSpace2d.py`,
`scalar_mass_integrator.py`): numpy arrays become total functions with explicit
shape data where shapes matter, scatter writes become ordered write lists, and
Python exceptions become `Except.error` values.  Real-valued array entries are
modelled over `ℚ`; quantities produced by the external mesh, quadrature and
scaled-monomial collaborators (basis values, normals, mass matrices) are
abstract parameters.
-/

/-- The polygonal-mesh data consumed by the space: entity counts, the number of
edges of every cell, the four columns of the `edge2cell` incidence record
(`edge2cell[:, 0/1]` = first/second incident cell, `edge2cell[:, 2/3]` = the
edge's local index inside that cell), and the boundary-edge flag. -/
structure PolyMesh where
  NE : ℕ
  NC : ℕ
  NCE : ℕ → ℕ
  e2c0 : ℕ → ℕ
  e2c1 : ℕ → ℕ
  e2j0 : ℕ → ℕ
  e2j1 : ℕ → ℕ
  isBdEdgeFlag : ℕ → Bool

/-- Topological consistency of the `edge2cell` record: incident cells are in
range, local edge indices are in range for the incident cell, and every
(cell, local edge) slot is claimed by at most one edge on each side, with a
slot never claimed as a first-cell slot by one edge and a second-cell slot by
a different edge.  (A boundary edge repeats its own first-cell record in the
second-cell columns, which is allowed.) -/
@[reducible] def MeshWF (m : PolyMesh) : Prop :=
  (∀ e, e < m.NE → m.e2c0 e < m.NC) ∧
  (∀ e, e < m.NE → m.e2c1 e < m.NC) ∧
  (∀ e, e < m.NE → m.e2j0 e < m.NCE (m.e2c0 e)) ∧
  (∀ e, e < m.NE → m.e2j1 e < m.NCE (m.e2c1 e)) ∧
  (∀ e, e < m.NE → ∀ f, f < m.NE → e ≠ f →
    (m.e2c0 e, m.e2j0 e) ≠ (m.e2c0 f, m.e2j0 f)) ∧
  (∀ e, e < m.NE → ∀ f, f < m.NE → e ≠ f →
    (m.e2c1 e, m.e2j1 e) ≠ (m.e2c1 f, m.e2j1 f)) ∧
  (∀ e, e < m.NE → ∀ f, f < m.NE → e ≠ f →
    (m.e2c0 e, m.e2j0 e) ≠ (m.e2c1 f, m.e2j1 f))

/-- `edge_to_dof` of `RDFNCVEMDof2d`: `np.arange(NE*p).reshape(NE, p)`, so edge
`e` owns the `p` consecutive global scalar dofs `e*p, …, e*p+p-1`. -/
def edge_to_dof (p e k : ℕ) : ℕ := e * p + k

/-- `number_of_local_dofs` of `RDFNCVEMDof2d`: `NCE * p` edge dofs per cell. -/
def dof_number_of_local_dofs (m : PolyMesh) (p c : ℕ) : ℕ := m.NCE c * p

/-- `number_of_global_dofs` of `RDFNCVEMDof2d`: `NE * p` (edge dofs only). -/
def dof_number_of_global_dofs (m : PolyMesh) (p : ℕ) : ℕ := m.NE * p

/-- `cell2dofLocation`: the exclusive prefix sums of the per-cell local dof
counts (`np.add.accumulate(ldof)` with a leading zero). -/
def cell2dofLocation (m : PolyMesh) (p c : ℕ) : ℕ :=
  ∑ i ∈ Finset.range c, m.NCE i * p

/-- Flat position targeted by the first-cell write of `cell_to_dof`:
`cell2dofLocation[edge2cell[e, 0]] + edge2cell[e, 2] * p + k`. -/
def pos0 (m : PolyMesh) (p e k : ℕ) : ℕ :=
  cell2dofLocation m p (m.e2c0 e) + m.e2j0 e * p + k

/-- Flat position targeted by the second-cell write of `cell_to_dof`:
`cell2dofLocation[edge2cell[e, 1]] + edge2cell[e, 3] * p + k`. -/
def pos1 (m : PolyMesh) (p e k : ℕ) : ℕ :=
  cell2dofLocation m p (m.e2c1 e) + m.e2j1 e * p + k

/-- Apply a list of (position, value) writes to an array-as-function, in
order; a later write to the same position overwrites an earlier one, which is
the semantics of sequenced numpy fancy-index assignments. -/
def applyWrites {α : Type} (l : List (ℕ × α)) (a : ℕ → α) : ℕ → α :=
  l.foldl (fun f w => Function.update f w.1 w.2) a

/-- The writes performed by `cell2dof[idx] = edge2dof` with
`idx = cell2dofLocation[edge2cell[:, [0]]] + edge2cell[:, [2]]*p + np.arange(p)`. -/
def pass0Writes (m : PolyMesh) (p : ℕ) : List (ℕ × ℕ) :=
  (List.range m.NE).flatMap fun e =>
    (List.range p).map fun k => (pos0 m p e k, edge_to_dof p e k)

/-- The writes performed by `cell2dof[idx] = edge2dof` with
`idx = cell2dofLocation[edge2cell[:, [1]]] + edge2cell[:, [3]]*p + np.arange(p)`. -/
def pass1Writes (m : PolyMesh) (p : ℕ) : List (ℕ × ℕ) :=
  (List.range m.NE).flatMap fun e =>
    (List.range p).map fun k => (pos1 m p e k, edge_to_dof p e k)

/-- `cell_to_dof` of `RDFNCVEMDof2d`: a zero-initialised flat array of length
`cell2dofLocation[-1]`, written by the first-cell pass and then the
second-cell pass. -/
def cell_to_dof (m : PolyMesh) (p : ℕ) : ℕ → ℕ :=
  applyWrites (pass0Writes m p ++ pass1Writes m p) (fun _ => 0)

/-- The writes performed by `isBdDof[edge2dof[isBdEdge]] = True` in
`RDFNCVEMDof2d.boundary_dof`. -/
def bdWrites (m : PolyMesh) (p : ℕ) : List (ℕ × Bool) :=
  (List.range m.NE).flatMap fun e =>
    if m.isBdEdgeFlag e then
      (List.range p).map fun k => (edge_to_dof p e k, true)
    else []

/-- `boundary_dof` of `RDFNCVEMDof2d` (delegated to by the space's own
`boundary_dof`): allocates a `False` array of length
`self.number_of_global_dofs()` — the dof manager's own count `NE*p` — and sets
the rows of `edge2dof` belonging to boundary edges to `True`.  Modelled as the
pair (allocated length, mask). -/
def boundary_dof (m : PolyMesh) (p : ℕ) : ℕ × (ℕ → Bool) :=
  (dof_number_of_global_dofs m p, applyWrites (bdWrites m p) (fun _ => false))

/-- `number_of_global_dofs` of the space: `2*NE*p` edge dofs for the two
velocity components, plus `NC*(p-2)*(p-1)//2` interior moment dofs when
`p > 2`. -/
def number_of_global_dofs (m : PolyMesh) (p : ℕ) : ℕ :=
  2 * m.NE * p + (if 2 < p then m.NC * ((p - 2) * (p - 1) / 2) else 0)

/-- Dimension `(p+1)(p+2)/2` of the scalar degree-`p` scaled monomial space. -/
def smldof (p : ℕ) : ℕ := (p + 1) * (p + 2) / 2

/-- Number `(p-2)(p-1)/2` of interior moment dofs per cell. -/
def idof (p : ℕ) : ℕ := (p - 2) * (p - 1) / 2

/-- `isInEdge` of the source: `edge2cell[:, 0] != edge2cell[:, 1]`. -/
def isInEdge (m : PolyMesh) (e : ℕ) : Prop := m.e2c0 e ≠ m.e2c1 e

instance (m : PolyMesh) (e : ℕ) : Decidable (isInEdge m e) := by
  unfold isInEdge; infer_instance

/-- The edge-dof column scatter common to the four moment coupling blocks of
`matrix_M`.  `F0 e i k` (resp. `F1 e i k`) abstracts the quadrature matrix
`F0 = einsum(ws, phi0, phi, eh, eh, ch) @ H1 / c` of the first (resp. second)
incident cell of edge `e`, `nc e` the relevant component of the fixed unit
normal of edge `e`, and `rowmap` the derivative-index row selection
(`x[0]` or `y[0]` of `index1(p=p-1)`).  The first-cell term is accumulated
with `np.add.at` at the first-cell columns `pos0`, and for interior edges the
second-cell term is accumulated with `np.subtract.at` at the second-cell
columns `pos1`. -/
def scatterM (m : PolyMesh) (p : ℕ) (F0 F1 : ℕ → ℕ → ℕ → ℚ) (nc : ℕ → ℚ)
    (rowmap : ℕ → ℕ) (r σ : ℕ) : ℚ :=
  (∑ e ∈ Finset.range m.NE, ∑ k ∈ Finset.range p,
      if pos0 m p e k = σ then F0 e (rowmap r) k * nc e else 0) -
    ∑ e ∈ Finset.range m.NE, ∑ k ∈ Finset.range p,
      if isInEdge m e ∧ pos1 m p e k = σ then F1 e (rowmap r) k * nc e else 0

/-- Block `M00` of `matrix_M`: rows selected by `x[0]`, scaled by the normal's
x-component; edge-dof columns only (the interior block `M02` is separate). -/
def matrix_M00 (m : PolyMesh) (p : ℕ) (F0 F1 : ℕ → ℕ → ℕ → ℚ)
    (n0 : ℕ → ℚ) (x0 : ℕ → ℕ) : ℕ → ℕ → ℚ :=
  scatterM m p F0 F1 n0 x0

/-- Block `M01` of `matrix_M`: rows `x[0]`, normal y-component. -/
def matrix_M01 (m : PolyMesh) (p : ℕ) (F0 F1 : ℕ → ℕ → ℕ → ℚ)
    (n1 : ℕ → ℚ) (x0 : ℕ → ℕ) : ℕ → ℕ → ℚ :=
  scatterM m p F0 F1 n1 x0

/-- Block `M10` of `matrix_M`: rows `y[0]`, normal x-component. -/
def matrix_M10 (m : PolyMesh) (p : ℕ) (F0 F1 : ℕ → ℕ → ℕ → ℚ)
    (n0 : ℕ → ℚ) (y0 : ℕ → ℕ) : ℕ → ℕ → ℚ :=
  scatterM m p F0 F1 n0 y0

/-- Block `M11` of `matrix_M`: rows `y[0]`, normal y-component. -/
def matrix_M11 (m : PolyMesh) (p : ℕ) (F0 F1 : ℕ → ℕ → ℕ → ℚ)
    (n1 : ℕ → ℚ) (y0 : ℕ → ℕ) : ℕ → ℕ → ℚ :=
  scatterM m p F0 F1 n1 y0

/-- The space object after `__init__`, carrying the mesh, the degree, and the
construction products that the methods below read.  Quantities computed by the
external scaled-monomial collaborator (`CM`, the `index1` derivative tables
`x0`/`y0`, cell areas) and the cached projection blocks (`J = [J0, J1, J2]`)
are abstract fields. -/
structure RDSpace where
  mesh : PolyMesh
  p : ℕ
  CM : ℕ → ℕ → ℕ → ℚ
  x0 : ℕ → ℕ
  y0 : ℕ → ℕ
  area : ℕ → ℚ
  J0 : ℕ → ℕ → ℚ
  J1 : ℕ → ℕ → ℚ
  J2 : ℕ → ℕ → ℕ → ℚ

/-- The list `J = [J0, J1, J2]` returned by `matrix_R_J` and stored on the
space (its three entries have different per-axis meanings, which is irrelevant
to the indexing facts proved below, so they are erased to `Unit` markers paired
with the stored block). -/
inductive JBlock where
  | glob (f : ℕ → ℕ → ℚ)
  | perCell (f : ℕ → ℕ → ℕ → ℚ)

/-- The cached `self.J`: exactly the three blocks `[J0, J1, J2]`. -/
def Jlist (sp : RDSpace) : List JBlock :=
  [JBlock.glob sp.J0, JBlock.glob sp.J1, JBlock.perCell sp.J2]

/-- Attribute lookup of `index1` on the space object: the class defines no
method or attribute of that name (the derivative-index tables live on the
external scaled-monomial collaborator as `self.smspace.index1`, which other
methods call), and `__init__` never assigns one, so the lookup fails. -/
def space_index1_attr : Option (ℕ → (ℕ → ℕ) × (ℕ → ℕ)) := none

/-- `matrix_Q_L`: for `p ≤ 2` the source returns `None, None` (the absent
value).  The `p > 2` branch first evaluates `idx = self.index1(p=p-2)` — but
the space class has no `index1` attribute, so Python raises `AttributeError`
right there; `Q`, `L0`, `L1` and the later `np.zeros(..., dtype=sel.ftype)`
line for `L2` (itself an unbound-name typo for `self`) are never reached. -/
def matrix_Q_L (sp : RDSpace) :
    Except String (Option ((ℕ → ℕ → ℕ → ℚ) ×
      ((ℕ → ℕ → ℚ) × (ℕ → ℕ → ℚ) × (ℕ → ℕ → ℕ → ℚ)))) :=
  if 2 < sp.p then
    match space_index1_attr with
    | none => Except.error "AttributeError: space object has no attribute index1"
    | some index1 =>
        let idx := index1 (sp.p - 2)
        let _Q : ℕ → ℕ → ℕ → ℚ := fun i a b =>
          sp.CM i (idx.1 a) (idx.1 b) + sp.CM i (idx.2 a) (idx.2 b)
        let _L0 : ℕ → ℕ → ℚ := fun _ _ => 0
        let _L1 : ℕ → ℕ → ℚ := fun _ _ => 0
        Except.error "NameError: name sel is not defined"
  else
    Except.ok none

/-- The per-cell body `f4` of `matrix_A`.  In the source it builds
`D = eye(PI0.shape[1]) - block([[D0, 0], [0, D0], [D1, D2]]) @ PI0`: the block
matrix has `2*smldof` columns while `PI0 = inv(G)@R` has `2*smldof + ndof`
rows (`ndof = smldof - p - 1 > 0` for `p ≥ 2`), so the matrix product raises a
shape error; were the shapes compatible, the subsequent `J3 = self.J[3][i]`
would fail anyway, because the cached `J` list has exactly three entries. -/
def matrix_A_f4 (sp : RDSpace) (_i : ℕ) : Except String Unit :=
  let sml := smldof sp.p
  let nd := sml - sp.p - 1
  if 2 * sml = 2 * sml + nd then
    match (Jlist sp).get? 3 with
    | none => Except.error "IndexError: list index out of range"
    | some _ => Except.ok ()
  else Except.error "ValueError: matmul shape mismatch"

/-- `matrix_A`: maps `f4` over the cells to get the local blocks, would then
scatter-add them into a `csr_matrix` — and ends with a bare `return`, so even
a successful run hands the caller `None` while the assembled sparse matrix is
discarded. -/
def matrix_A (sp : RDSpace) : Except String (Option (ℕ → ℕ → ℚ)) :=
  match (List.range sp.mesh.NC).mapM (matrix_A_f4 sp) with
  | Except.error s => Except.error s
  | Except.ok _ => Except.ok none

/-- Name lookup for `NE` inside `matrix_P`: unlike `matrix_A`, which binds
`NE = mesh.number_of_edges()`, `matrix_P` never assigns `NE`, and no global of
that name exists in the module, so the lookup fails. -/
def matrix_P_scope_NE : Option ℕ := none

/-- The per-cell index builder `f0` of `matrix_P`: evaluates
`np.r_[cell2dof[s], NE*p + cell2dof[s], 2*NE*p + np.arange(i*idof, (i+1)*idof)]`,
whose reference to the unbound name `NE` raises `NameError` on the first
call. -/
def matrix_P_f0 (_sp : RDSpace) (_i : ℕ) : Except String Unit :=
  match matrix_P_scope_NE with
  | none => Except.error "NameError: name NE is not defined"
  | some _ => Except.ok ()

/-- `matrix_P`: builds the per-cell index pairs with `f0` (which fails on the
first cell), and in its dead remainder builds `P0`, `P1` from `J`-block
triplets and — for `p > 2` — a `P2` block whose data array is taken from
`self.J[4]` (out of range for the 3-element `J`) and whose `coo_matrix` is
constructed from `P1` itself rather than a `P2` triplet array. -/
def matrix_P (sp : RDSpace) : Except String Unit :=
  match (List.range sp.mesh.NC).mapM (matrix_P_f0 sp) with
  | Except.error s => Except.error s
  | Except.ok _ => Except.ok ()

/-- A numpy ndarray: a shape and flat-by-multi-index data. -/
structure NDArray where
  shape : List ℕ
  data : List ℕ → ℚ

/-- The assignment `b[rows, :] = vals` with a fancy first index and a full
slice as second index.  numpy first checks the index tuple against the array's
dimensionality: two indices into an array with fewer than two axes raise
`IndexError`.  Otherwise positions selected by `rows` receive the matching
row of `vals` (later occurrences of a duplicated row index win). -/
def fancy_setitem_colon (b : NDArray) (rows : List ℕ) (vals : ℕ → ℕ → ℚ) :
    Except String NDArray :=
  if 2 ≤ b.shape.length then
    Except.ok { b with data := fun ix =>
      match ix with
      | i :: j :: _ =>
        match ((List.range rows.length).filter fun q =>
            rows.getD q 0 = i).getLast? with
        | some q => vals q j
        | none => b.data ix
      | _ => b.data ix }
  else Except.error "IndexError: too many indices for array"

/-- `cell_to_dof(doftype='cell')` of the space: the interior moment dofs
`2*NE*p + np.arange(NC*idof)`, flattened. -/
def cell_to_dof_cell (m : PolyMesh) (p : ℕ) : List ℕ :=
  (List.range (m.NC * idof p)).map fun t => 2 * m.NE * p + t

/-- `source_vector(f)`: after computing the per-cell moment data
`bb = area * inv(CM_{p-2}) @ ∫ f·m` (abstracted here as `bb`, produced by the
external quadrature collaborator), the source allocates the one-dimensional
load vector `b = np.zeros(gdof)` and executes `b[cell2dof, :] = bb` — a
two-index assignment into a one-axis array. -/
def source_vector (m : PolyMesh) (p : ℕ) (bb : ℕ → ℕ → ℚ) :
    Except String NDArray :=
  fancy_setitem_colon
    { shape := [number_of_global_dofs m p], data := fun _ => 0 }
    (cell_to_dof_cell m p) bb

/-- A coefficient value as it stands after the callable-evaluation step of the
assemblers: a Python scalar, an ndarray with its shape, or any other object. -/
inductive Coef where
  | scalar (v : ℚ)
  | array (shape : List ℕ) (data : List ℕ → ℚ)
  | other

/-- A batch of per-cell dense matrices, `(cell, row, col) ↦ value`. -/
def Mat3 : Type := ℕ → ℕ → ℕ → ℚ

/-- The base term `einsum('q, qci, qcj, c -> cij', ws, phi0, phi0, cellmeasure)`
of `ScalarMassIntegrator.assembly_cell_matrix`. -/
def acm_base (NQ : ℕ) (ws : ℕ → ℚ) (phi0 : ℕ → ℕ → ℕ → ℚ) (cm : ℕ → ℚ) :
    Mat3 := fun c i j =>
  ∑ q ∈ Finset.range NQ, ws q * phi0 q c i * phi0 q c j * cm c

/-- The coefficient dispatch of `assembly_cell_matrix`, producing the term
added to `M`.  `None` and scalar coefficients multiply the base term; an
ndarray of shape `(NC,)` takes the per-cell contraction; every other ndarray
falls into the catch-all contraction `einsum('q, qc, qci, qcj, c -> cij', …)`,
which numpy accepts whenever the operand is two-dimensional with each axis
matching (or broadcasting against) `NQ` and `NC`, and rejects otherwise; a
non-scalar non-ndarray coefficient raises
`ValueError("coef is not correct!")`. -/
def acm_term (NQ NC : ℕ) (ws : ℕ → ℚ) (phi0 : ℕ → ℕ → ℕ → ℚ) (cm : ℕ → ℚ)
    (coef : Option Coef) : Except String Mat3 :=
  match coef with
  | none => Except.ok (acm_base NQ ws phi0 cm)
  | some (Coef.scalar v) =>
      Except.ok fun c i j => v * acm_base NQ ws phi0 cm c i j
  | some (Coef.array shape data) =>
      if shape = [NC] then
        Except.ok fun c i j =>
          ∑ q ∈ Finset.range NQ,
            ws q * data [c] * phi0 q c i * phi0 q c j * cm c
      else
        if shape.length = 2 ∧ (shape.getD 0 0 = 1 ∨ shape.getD 0 0 = NQ) ∧
            (shape.getD 1 0 = 1 ∨ shape.getD 1 0 = NC) then
          Except.ok fun c i j =>
            ∑ q ∈ Finset.range NQ,
              ws q * data [if shape.getD 0 0 = 1 then 0 else q,
                if shape.getD 1 0 = 1 then 0 else c] *
                phi0 q c i * phi0 q c j * cm c
        else Except.error "ValueError: einsum operands could not be broadcast"
  | some Coef.other => Except.error "ValueError: coef is not correct!"

/-- `ScalarMassIntegrator.assembly_cell_matrix`, with the mutable `out`
argument made explicit: the result is the pair (returned value, final
contents of the caller's `out` array).  `M` starts as `out` when supplied and
as fresh zeros otherwise, the dispatched term is accumulated with `+=`, and
the method returns `M` only when `out` was `None`. -/
def assembly_cell_matrix (NQ NC : ℕ) (ws : ℕ → ℚ) (phi0 : ℕ → ℕ → ℕ → ℚ)
    (cm : ℕ → ℚ) (coef : Option Coef) (out : Option Mat3) :
    Except String (Option Mat3 × Option Mat3) :=
  let M0 : Mat3 := match out with | none => fun _ _ _ => 0 | some o => o
  match acm_term NQ NC ws phi0 cm coef with
  | Except.error s => Except.error s
  | Except.ok T =>
      let M : Mat3 := fun c i j => M0 c i j + T c i j
      match out with
      | none => Except.ok (some M, none)
      | some _ => Except.ok (none, some M)

/-- The coefficient dispatch of `assembly_cell_matrix_fast` over the
precomputed reference data `data[dataindex]` (`dataM`, with leading axis
`Adim`) and, for the `(NC, COFldof)` branch, the coefficient-space data
`dataC`.  Shapes other than `(NC, COFldof)` and `(NC,)` raise
`ValueError("coef is not correct!")`; a shapeless (non-array, non-scalar)
coefficient fails on the `coef.shape` attribute access. -/
def acmf_term (NC COFldof Adim : ℕ) (cm : ℕ → ℚ) (dataM : ℕ → ℕ → ℕ → ℚ)
    (dataC : ℕ → ℕ → ℕ → ℚ) (coef : Option Coef) : Except String Mat3 :=
  match coef with
  | none => Except.ok fun c i j => cm c * dataM c i j
  | some (Coef.scalar v) =>
      Except.ok fun c i j =>
        v * (cm c * ∑ a ∈ Finset.range Adim, dataM a i j)
  | some (Coef.array shape data) =>
      if shape = [NC, COFldof] then
        Except.ok fun c i j =>
          cm c * ∑ k ∈ Finset.range COFldof, dataC i j k * data [c, k]
      else if shape = [NC] then
        Except.ok fun c i j =>
          cm c * (∑ a ∈ Finset.range Adim, dataM a i j) * data [c]
      else Except.error "ValueError: coef is not correct!"
  | some Coef.other =>
      Except.error "AttributeError: coef object has no attribute shape"

/-- `ScalarMassIntegrator.assembly_cell_matrix_fast`, with the same explicit
`out` protocol as `assembly_cell_matrix`. -/
def assembly_cell_matrix_fast (NC COFldof Adim : ℕ) (cm : ℕ → ℚ)
    (dataM : ℕ → ℕ → ℕ → ℚ) (dataC : ℕ → ℕ → ℕ → ℚ) (coef : Option Coef)
    (out : Option Mat3) : Except String (Option Mat3 × Option Mat3) :=
  let M0 : Mat3 := match out with | none => fun _ _ _ => 0 | some o => o
  match acmf_term NC COFldof Adim cm dataM dataC coef with
  | Except.error s => Except.error s
  | Except.ok T =>
      let M : Mat3 := fun c i j => M0 c i j + T c i j
      match out with
      | none => Except.ok (some M, none)
      | some _ => Except.ok (none, some M)

/-- Whether an `Except` computation finished without raising. -/
def exceptIsOk {ε α : Type} : Except ε α → Bool
  | Except.ok _ => true
  | Except.error _ => false

/-- A concrete mesh for witnesses: two triangles glued along edge 0.
`NE = 5`, `NC = 2`, every cell has three edges; edge 0 is interior with
records `(0, 1, 0, 0)`, the other four edges are boundary edges repeating
their first-cell record. -/
def M1 : PolyMesh where
  NE := 5
  NC := 2
  NCE := fun _ => 3
  e2c0 := fun e => if e < 3 then 0 else 1
  e2c1 := fun e => if 1 ≤ e ∧ e ≤ 2 then 0 else 1
  e2j0 := fun e => match e with | 0 => 0 | 1 => 1 | 2 => 2 | 3 => 1 | _ => 2
  e2j1 := fun e => match e with | 0 => 0 | 1 => 1 | 2 => 2 | 3 => 1 | _ => 2
  isBdEdgeFlag := fun e => decide (e ≠ 0)

/-- All-zero stand-in for an abstract 3-axis array. -/
def zero3 : ℕ → ℕ → ℕ → ℚ := fun _ _ _ => 0

/-- All-zero stand-in for an abstract 2-axis array. -/
def zero2 : ℕ → ℕ → ℚ := fun _ _ => 0

/-- All-zero stand-in for an abstract 1-axis array. -/
def zero1 : ℕ → ℚ := fun _ => 0

/-- All-zero stand-in for an abstract index table. -/
def zeroN : ℕ → ℕ := fun _ => 0

/-- All-one 3-axis array used to instantiate abstract quadrature data. -/
def wOne3 : ℕ → ℕ → ℕ → ℚ := fun _ _ _ => 1

/-- All-one 1-axis array used to instantiate abstract quadrature data. -/
def wOne1 : ℕ → ℚ := fun _ => 1

/-- Identity row-selection table used to instantiate abstract index data. -/
def wId : ℕ → ℕ := fun r => r

/-- A concrete degree-2 space over `M1` with zeroed abstract data. -/
def spaceP2 : RDSpace where
  mesh := M1
  p := 2
  CM := zero3
  x0 := zeroN
  y0 := zeroN
  area := zero1
  J0 := zero2
  J1 := zero2
  J2 := zero3

/-- A concrete degree-3 space over `M1` with zeroed abstract data. -/
def spaceP3 : RDSpace := { spaceP2 with p := 3 }

lemma applyWrites_cons {α : Type} (w : ℕ × α) (l : List (ℕ × α)) (a : ℕ → α) :
    applyWrites (w :: l) a = applyWrites l (Function.update a w.1 w.2) := rfl

lemma applyWrites_notin {α : Type} :
    ∀ (l : List (ℕ × α)) (a : ℕ → α) (t : ℕ),
      (∀ w ∈ l, w.1 ≠ t) → applyWrites l a t = a t := by
  intro l
  induction l with
  | nil => intro a t _; rfl
  | cons w l ih =>
    intro a t h
    rw [applyWrites_cons, ih _ t fun w2 hw2 => h w2 (List.mem_cons_of_mem _ hw2)]
    have ht : t ≠ w.1 := fun he => h w (List.mem_cons_self _ _) he.symm
    exact Function.update_noteq ht w.2 a

lemma applyWrites_const {α : Type} :
    ∀ (l : List (ℕ × α)) (a : ℕ → α) (t : ℕ) (v : α),
      (t, v) ∈ l → (∀ w ∈ l, w.1 = t → w.2 = v) → applyWrites l a t = v := by
  intro l
  induction l with
  | nil => intro a t v hmem _; exact absurd hmem (List.not_mem_nil _)
  | cons w l ih =>
    intro a t v hmem hall
    rw [applyWrites_cons]
    by_cases hl : ∃ w2 ∈ l, w2.1 = t
    · obtain ⟨w2, hw2, hw2t⟩ := hl
      have hv : w2.2 = v := hall w2 (List.mem_cons_of_mem _ hw2) hw2t
      have hmem2 : (t, v) ∈ l := by
        have hw2eq : w2 = (t, v) := by
          obtain ⟨x, y⟩ := w2
          simp only [Prod.mk.injEq]
          exact ⟨hw2t, hv⟩
        rwa [hw2eq] at hw2
      exact ih _ t v hmem2 fun w3 h3 => hall w3 (List.mem_cons_of_mem _ h3)
    · push_neg at hl
      rw [applyWrites_notin l _ t hl]
      rcases List.mem_cons.mp hmem with h | h
      · rw [← h]; exact Function.update_same t v a
      · exact absurd rfl (hl (t, v) h)

lemma cell2dofLocation_succ (m : PolyMesh) (p c : ℕ) :
    cell2dofLocation m p (c + 1) = cell2dofLocation m p c + m.NCE c * p :=
  Finset.sum_range_succ _ c

lemma cell2dofLocation_mono (m : PolyMesh) (p : ℕ) {c c2 : ℕ} (h : c ≤ c2) :
    cell2dofLocation m p c ≤ cell2dofLocation m p c2 :=
  Finset.sum_le_sum_of_subset (Finset.range_subset.mpr h)

lemma edge_offset_lt {j k n p : ℕ} (hj : j < n) (hk : k < p) :
    j * p + k < n * p := by
  have h1 : j * p + k < j * p + p := Nat.add_lt_add_left hk _
  have h2 : j * p + p = (j + 1) * p := by ring
  exact lt_of_lt_of_le (h2 ▸ h1) (Nat.mul_le_mul_right p hj)

lemma slot_offset_lt {p j k j2 k2 : ℕ} (hk : k < p) (hlt : j < j2) :
    j * p + k < j2 * p + k2 := by
  have ha : j * p + k < (j + 1) * p := by
    have h1 : j * p + k < j * p + p := Nat.add_lt_add_left hk _
    have h2 : j * p + p = (j + 1) * p := by ring
    exact h2 ▸ h1
  exact lt_of_lt_of_le ha
    (le_trans (Nat.mul_le_mul_right p hlt) (Nat.le_add_right _ _))

lemma slot_offset_inj {p j k j2 k2 : ℕ} (hk : k < p) (hk2 : k2 < p)
    (h : j * p + k = j2 * p + k2) : j = j2 ∧ k = k2 := by
  have hjj : j = j2 := by
    rcases Nat.lt_trichotomy j j2 with hlt | heq | hgt
    · exact absurd h (Nat.ne_of_lt (slot_offset_lt hk hlt))
    · exact heq
    · exact absurd h.symm (Nat.ne_of_lt (slot_offset_lt hk2 hgt))
  subst hjj
  exact ⟨rfl, Nat.add_left_cancel h⟩

lemma loc_slot_lt (m : PolyMesh) (p : ℕ) {c c2 j k j2 k2 : ℕ}
    (hj : j < m.NCE c) (hk : k < p) (hlt : c < c2) :
    cell2dofLocation m p c + j * p + k <
      cell2dofLocation m p c2 + j2 * p + k2 := by
  have h1 : j * p + k < m.NCE c * p := edge_offset_lt hj hk
  have h2 : cell2dofLocation m p c + m.NCE c * p ≤ cell2dofLocation m p c2 := by
    rw [← cell2dofLocation_succ]
    exact cell2dofLocation_mono m p hlt
  have h3 : cell2dofLocation m p c + j * p + k <
      cell2dofLocation m p c + m.NCE c * p := by
    rw [Nat.add_assoc]
    exact Nat.add_lt_add_left h1 _
  exact lt_of_lt_of_le h3
    (le_trans h2 (le_trans (Nat.le_add_right _ _) (Nat.le_add_right _ _)))

lemma slot_pos_inj (m : PolyMesh) (p : ℕ) {c j k c2 j2 k2 : ℕ}
    (hj : j < m.NCE c) (hk : k < p) (hj2 : j2 < m.NCE c2) (hk2 : k2 < p)
    (h : cell2dofLocation m p c + j * p + k =
      cell2dofLocation m p c2 + j2 * p + k2) :
    c = c2 ∧ j = j2 ∧ k = k2 := by
  have hcc : c = c2 := by
    rcases Nat.lt_trichotomy c c2 with hlt | heq | hgt
    · exact absurd h (Nat.ne_of_lt (loc_slot_lt m p hj hk hlt))
    · exact heq
    · exact absurd h.symm (Nat.ne_of_lt (loc_slot_lt m p hj2 hk2 hgt))
  subst hcc
  have hoff : j * p + k = j2 * p + k2 := by
    rw [Nat.add_assoc, Nat.add_assoc] at h
    exact Nat.add_left_cancel h
  exact ⟨rfl, slot_offset_inj hk hk2 hoff⟩

lemma smldof_ge (p : ℕ) (hp : 1 ≤ p) : p + 2 ≤ smldof p := by
  unfold smldof
  rw [Nat.le_div_iff_mul_le (by norm_num)]
  calc (p + 2) * 2 = 2 * (p + 2) := Nat.mul_comm _ _
  _ ≤ (p + 1) * (p + 2) := Nat.mul_le_mul_right _ (by omega)

lemma M1_wf : MeshWF M1 := by
  refine ⟨?_, ?_, ?_, ?_, ?_, ?_, ?_⟩ <;> decide

/-- C4: for every edge `e` with `edge2cell` record `(c0, c1, j0, j1)` and every
`k < p`, `cell_to_dof` leaves the value `edge_to_dof[e, k]` at flat position
`cell2dofLocation[c0] + j0*p + k` and at `cell2dofLocation[c1] + j1*p + k`
(for a boundary edge the two positions coincide), using local index 2 of the
record for the first incident cell and local index 3 for the second. -/
theorem cell_to_dof_edge_placement (m : PolyMesh) (p : ℕ) (wf : MeshWF m)
    (e k : ℕ) (he : e < m.NE) (hk : k < p) :
    cell_to_dof m p (cell2dofLocation m p (m.e2c0 e) + m.e2j0 e * p + k) =
      edge_to_dof p e k ∧
    cell_to_dof m p (cell2dofLocation m p (m.e2c1 e) + m.e2j1 e * p + k) =
      edge_to_dof p e k := by
  obtain ⟨wc0, wc1, wj0, wj1, winj0, winj1, wx⟩ := wf
  have hm0 : (pos0 m p e k, edge_to_dof p e k) ∈ pass0Writes m p := by
    unfold pass0Writes
    exact List.mem_flatMap.mpr ⟨e, List.mem_range.mpr he,
      List.mem_map.mpr ⟨k, List.mem_range.mpr hk, rfl⟩⟩
  have hm1 : (pos1 m p e k, edge_to_dof p e k) ∈ pass1Writes m p := by
    unfold pass1Writes
    exact List.mem_flatMap.mpr ⟨e, List.mem_range.mpr he,
      List.mem_map.mpr ⟨k, List.mem_range.mpr hk, rfl⟩⟩
  constructor
  · show applyWrites (pass0Writes m p ++ pass1Writes m p) (fun _ => 0)
      (pos0 m p e k) = edge_to_dof p e k
    apply applyWrites_const
    · exact List.mem_append_left _ hm0
    · intro w hw hwt
      rcases List.mem_append.mp hw with h0 | h1
      · unfold pass0Writes at h0
        obtain ⟨e2, he2r, hmap⟩ := List.mem_flatMap.mp h0
        obtain ⟨k2, hk2r, hwk⟩ := List.mem_map.mp hmap
        have he2 := List.mem_range.mp he2r
        have hk2 := List.mem_range.mp hk2r
        rw [← hwk] at hwt ⊢
        obtain ⟨hc, hj, hkk⟩ := slot_pos_inj m p (wj0 e2 he2) hk2 (wj0 e he) hk hwt
        by_cases hee : e2 = e
        · subst hee; rw [hkk]
        · exact absurd (by rw [hc, hj]) (winj0 e2 he2 e he hee)
      · unfold pass1Writes at h1
        obtain ⟨e2, he2r, hmap⟩ := List.mem_flatMap.mp h1
        obtain ⟨k2, hk2r, hwk⟩ := List.mem_map.mp hmap
        have he2 := List.mem_range.mp he2r
        have hk2 := List.mem_range.mp hk2r
        rw [← hwk] at hwt ⊢
        obtain ⟨hc, hj, hkk⟩ := slot_pos_inj m p (wj1 e2 he2) hk2 (wj0 e he) hk hwt
        by_cases hee : e2 = e
        · subst hee; rw [hkk]
        · exact absurd (by rw [hc, hj]) (wx e he e2 he2 fun hs => hee hs.symm).symm
  · show applyWrites (pass0Writes m p ++ pass1Writes m p) (fun _ => 0)
      (pos1 m p e k) = edge_to_dof p e k
    apply applyWrites_const
    · exact List.mem_append_right _ hm1
    · intro w hw hwt
      rcases List.mem_append.mp hw with h0 | h1
      · unfold pass0Writes at h0
        obtain ⟨e2, he2r, hmap⟩ := List.mem_flatMap.mp h0
        obtain ⟨k2, hk2r, hwk⟩ := List.mem_map.mp hmap
        have he2 := List.mem_range.mp he2r
        have hk2 := List.mem_range.mp hk2r
        rw [← hwk] at hwt ⊢
        obtain ⟨hc, hj, hkk⟩ := slot_pos_inj m p (wj0 e2 he2) hk2 (wj1 e he) hk hwt
        by_cases hee : e2 = e
        · subst hee; rw [hkk]
        · exact absurd (by rw [hc, hj]) (wx e2 he2 e he hee)
      · unfold pass1Writes at h1
        obtain ⟨e2, he2r, hmap⟩ := List.mem_flatMap.mp h1
        obtain ⟨k2, hk2r, hwk⟩ := List.mem_map.mp hmap
        have he2 := List.mem_range.mp he2r
        have hk2 := List.mem_range.mp hk2r
        rw [← hwk] at hwt ⊢
        obtain ⟨hc, hj, hkk⟩ := slot_pos_inj m p (wj1 e2 he2) hk2 (wj1 e he) hk hwt
        by_cases hee : e2 = e
        · subst hee; rw [hkk]
        · exact absurd (by rw [hc, hj]) (winj1 e2 he2 e he hee)

/-- C4 witness: on the two-triangle mesh `M1` with `p = 2`, the shared edge 0
places its dofs 0 and 1 at both incident cells' slices, and edge 3 of cell 1
lands at `cell2dofLocation[1] + 1*2 + k`. -/
theorem cell_to_dof_edge_placement_w :
    cell_to_dof M1 2 (cell2dofLocation M1 2 (M1.e2c0 0) + M1.e2j0 0 * 2 + 1) =
      edge_to_dof 2 0 1 ∧
    cell_to_dof M1 2 (cell2dofLocation M1 2 (M1.e2c1 0) + M1.e2j1 0 * 2 + 1) =
      edge_to_dof 2 0 1 :=
  cell_to_dof_edge_placement M1 2 M1_wf 0 1 (by decide) (by decide)

lemma scatterM_at_pos0 (m : PolyMesh) (p : ℕ) (F0 F1 : ℕ → ℕ → ℕ → ℚ)
    (nc : ℕ → ℚ) (rowmap : ℕ → ℕ) (wf : MeshWF m) {e k : ℕ} (r : ℕ)
    (he : e < m.NE) (hk : k < p) (hin : m.e2c0 e ≠ m.e2c1 e) :
    scatterM m p F0 F1 nc rowmap r (pos0 m p e k) =
      F0 e (rowmap r) k * nc e := by
  obtain ⟨wc0, wc1, wj0, wj1, winj0, winj1, wx⟩ := wf
  unfold scatterM
  have hsub : (∑ e2 ∈ Finset.range m.NE, ∑ k2 ∈ Finset.range p,
      if isInEdge m e2 ∧ pos1 m p e2 k2 = pos0 m p e k then
        F1 e2 (rowmap r) k2 * nc e2 else 0) = 0 := by
    apply Finset.sum_eq_zero
    intro e2 he2r
    apply Finset.sum_eq_zero
    intro k2 hk2r
    have he2 := Finset.mem_range.mp he2r
    have hk2 := Finset.mem_range.mp hk2r
    rw [if_neg]
    rintro ⟨_, hpos⟩
    obtain ⟨hc, hj, _⟩ :=
      slot_pos_inj m p (wj1 e2 he2) hk2 (wj0 e he) hk hpos
    by_cases hee : e2 = e
    · subst hee; exact hin (hc.symm)
    · exact wx e he e2 he2 (fun hs => hee hs.symm) (by rw [hc, hj])
  have hadd : (∑ e2 ∈ Finset.range m.NE, ∑ k2 ∈ Finset.range p,
      if pos0 m p e2 k2 = pos0 m p e k then
        F0 e2 (rowmap r) k2 * nc e2 else 0) =
      F0 e (rowmap r) k * nc e := by
    rw [Finset.sum_eq_single_of_mem e (Finset.mem_range.mpr he)]
    · rw [Finset.sum_eq_single_of_mem k (Finset.mem_range.mpr hk)]
      · rw [if_pos rfl]
      · intro k2 hk2r hk2ne
        have hk2 := Finset.mem_range.mp hk2r
        rw [if_neg]
        intro hpos
        obtain ⟨_, _, hkk⟩ :=
          slot_pos_inj m p (wj0 e he) hk2 (wj0 e he) hk hpos
        exact hk2ne hkk
    · intro e2 he2r he2ne
      apply Finset.sum_eq_zero
      intro k2 hk2r
      have he2 := Finset.mem_range.mp he2r
      have hk2 := Finset.mem_range.mp hk2r
      rw [if_neg]
      intro hpos
      obtain ⟨hc, hj, _⟩ :=
        slot_pos_inj m p (wj0 e2 he2) hk2 (wj0 e he) hk hpos
      exact winj0 e2 he2 e he he2ne (by rw [hc, hj])
  rw [hadd, hsub, sub_zero]

lemma scatterM_at_pos1 (m : PolyMesh) (p : ℕ) (F0 F1 : ℕ → ℕ → ℕ → ℚ)
    (nc : ℕ → ℚ) (rowmap : ℕ → ℕ) (wf : MeshWF m) {e k : ℕ} (r : ℕ)
    (he : e < m.NE) (hk : k < p) (hin : m.e2c0 e ≠ m.e2c1 e) :
    scatterM m p F0 F1 nc rowmap r (pos1 m p e k) =
      -(F1 e (rowmap r) k * nc e) := by
  obtain ⟨wc0, wc1, wj0, wj1, winj0, winj1, wx⟩ := wf
  unfold scatterM
  have hadd : (∑ e2 ∈ Finset.range m.NE, ∑ k2 ∈ Finset.range p,
      if pos0 m p e2 k2 = pos1 m p e k then
        F0 e2 (rowmap r) k2 * nc e2 else 0) = 0 := by
    apply Finset.sum_eq_zero
    intro e2 he2r
    apply Finset.sum_eq_zero
    intro k2 hk2r
    have he2 := Finset.mem_range.mp he2r
    have hk2 := Finset.mem_range.mp hk2r
    rw [if_neg]
    intro hpos
    obtain ⟨hc, hj, _⟩ :=
      slot_pos_inj m p (wj0 e2 he2) hk2 (wj1 e he) hk hpos
    by_cases hee : e2 = e
    · subst hee; exact hin hc
    · exact wx e2 he2 e he hee (by rw [hc, hj])
  have hsub : (∑ e2 ∈ Finset.range m.NE, ∑ k2 ∈ Finset.range p,
      if isInEdge m e2 ∧ pos1 m p e2 k2 = pos1 m p e k then
        F1 e2 (rowmap r) k2 * nc e2 else 0) =
      F1 e (rowmap r) k * nc e := by
    rw [Finset.sum_eq_single_of_mem e (Finset.mem_range.mpr he)]
    · rw [Finset.sum_eq_single_of_mem k (Finset.mem_range.mpr hk)]
      · rw [if_pos ⟨hin, rfl⟩]
      · intro k2 hk2r hk2ne
        have hk2 := Finset.mem_range.mp hk2r
        rw [if_neg]
        rintro ⟨_, hpos⟩
        obtain ⟨_, _, hkk⟩ :=
          slot_pos_inj m p (wj1 e he) hk2 (wj1 e he) hk hpos
        exact hk2ne hkk
    · intro e2 he2r he2ne
      apply Finset.sum_eq_zero
      intro k2 hk2r
      have he2 := Finset.mem_range.mp he2r
      have hk2 := Finset.mem_range.mp hk2r
      rw [if_neg]
      rintro ⟨_, hpos⟩
      obtain ⟨hc, hj, _⟩ :=
        slot_pos_inj m p (wj1 e2 he2) hk2 (wj1 e he) hk hpos
      exact winj1 e2 he2 e he he2ne (by rw [hc, hj])
  rw [hadd, hsub, zero_sub]

/-- C8 counterexample: on the two-triangle mesh with `p = 2`, `boundary_dof`
allocates a mask of length `NE*p = 10`, which is not the space's
`number_of_global_dofs() = 2*NE*p = 20`. -/
theorem boundary_dof_length_cex :
    (boundary_dof M1 2).1 ≠ number_of_global_dofs M1 2 := by decide

/-- C8 amended: `boundary_dof()` returns a mask allocated with the scalar dof
manager's own global dof count `NE*p` (not the space's `2*NE*p` plus interior
dofs), and the mask is `True` exactly at the dof indices of boundary edges. -/
theorem boundary_dof_amended (m : PolyMesh) (p d : ℕ) :
    (boundary_dof m p).1 = dof_number_of_global_dofs m p ∧
    ((boundary_dof m p).2 d = true ↔
      ∃ e, e < m.NE ∧ m.isBdEdgeFlag e = true ∧
        ∃ k, k < p ∧ d = edge_to_dof p e k) := by
  refine ⟨rfl, ?_⟩
  constructor
  · intro hd
    by_cases hex : ∃ w ∈ bdWrites m p, w.1 = d
    · obtain ⟨w, hw, hwd⟩ := hex
      unfold bdWrites at hw
      obtain ⟨e, her, hmem⟩ := List.mem_flatMap.mp hw
      by_cases hbd : m.isBdEdgeFlag e
      · rw [if_pos hbd] at hmem
        obtain ⟨k, hkr, hwk⟩ := List.mem_map.mp hmem
        refine ⟨e, List.mem_range.mp her, hbd, k, List.mem_range.mp hkr, ?_⟩
        rw [← hwd, ← hwk]
      · rw [if_neg hbd] at hmem
        exact absurd hmem (List.not_mem_nil _)
    · push_neg at hex
      have hz := applyWrites_notin (bdWrites m p) (fun _ => false) d hex
      have : (boundary_dof m p).2 d = false := hz
      rw [this] at hd
      exact Bool.noConfusion hd
  · rintro ⟨e, he, hbd, k, hk, rfl⟩
    show applyWrites (bdWrites m p) (fun _ => false) (edge_to_dof p e k) = true
    apply applyWrites_const
    · unfold bdWrites
      refine List.mem_flatMap.mpr ⟨e, List.mem_range.mpr he, ?_⟩
      rw [if_pos hbd]
      exact List.mem_map.mpr ⟨k, List.mem_range.mpr hk, rfl⟩
    · intro w hw _
      unfold bdWrites at hw
      obtain ⟨e2, _, hmem⟩ := List.mem_flatMap.mp hw
      by_cases hbd2 : m.isBdEdgeFlag e2
      · rw [if_pos hbd2] at hmem
        obtain ⟨k2, _, hwk⟩ := List.mem_map.mp hmem
        rw [← hwk]
      · rw [if_neg hbd2] at hmem
        exact absurd hmem (List.not_mem_nil _)

/-- C8 amended witness: dof 3 (edge 1, offset 1) lies on a boundary edge of
`M1`, so the mask is `True` there, and the allocated length is `NE*p`. -/
theorem boundary_dof_amended_w :
    (boundary_dof M1 2).1 = dof_number_of_global_dofs M1 2 ∧
    (boundary_dof M1 2).2 3 = true :=
  ⟨(boundary_dof_amended M1 2 3).1,
   (boundary_dof_amended M1 2 3).2.mpr ⟨1, by decide, by decide, 1, by decide, by decide⟩⟩

/-- C3: for `p = 2` the source returns the absent value (`None, None`,
modelled `Except.ok none`), as the claim states; but for `p = 3` (any
`p > 2`) the branch's first statement `idx = self.index1(p=p-2)` raises
`AttributeError` — the space class defines no `index1` — so `matrix_Q_L`
never returns `Q` and `L = [L0, L1, L2]`, and space construction with `p > 2`
cannot complete (`__init__` calls `matrix_Q_L` unconditionally; the
`dtype=sel.ftype` typo on the later `L2` line is unreachable dead code). -/
theorem matrix_Q_L_behavior :
    matrix_Q_L spaceP3 =
      Except.error "AttributeError: space object has no attribute index1" ∧
    matrix_Q_L spaceP2 = Except.ok none :=
  ⟨rfl, rfl⟩

/-- C1: `matrix_A()` never returns the assembled global stiffness matrix.  On
every space with at least one cell and `p ≥ 2`, the per-cell body `f4` already
fails: `block([[D0,0],[0,D0],[D1,D2]])` has `2*smldof` columns while
`PI0` has `2*smldof + ndof` rows with `ndof = smldof - p - 1 > 0`, so the
matrix product is rejected (and the subsequent `self.J[3]` would be out of
range for the cached 3-element `J` anyway); moreover, for every space
whatsoever the function can never produce a matrix, because its final
statement is a bare `return` that discards the assembled `csr_matrix`. -/
theorem matrix_A_bug (sp : RDSpace) (hNC : 1 ≤ sp.mesh.NC) (hp : 2 ≤ sp.p) :
    matrix_A sp = Except.error "ValueError: matmul shape mismatch" ∧
    (Jlist sp).length = 3 ∧
    ∀ sp' : RDSpace, ∀ M, matrix_A sp' ≠ Except.ok (some M) := by
  have hnd : 0 < smldof sp.p - sp.p - 1 := by
    have := smldof_ge sp.p (by omega)
    omega
  have hf4 : matrix_A_f4 sp 0 =
      Except.error "ValueError: matmul shape mismatch" := by
    unfold matrix_A_f4
    rw [if_neg]
    omega
  refine ⟨?_, rfl, ?_⟩
  · unfold matrix_A
    obtain ⟨n, hn⟩ : ∃ n, sp.mesh.NC = n + 1 := ⟨sp.mesh.NC - 1, by omega⟩
    rw [hn, List.range_succ_eq_map, List.mapM_cons, hf4]
    rfl
  · intro sp' M
    unfold matrix_A
    cases h : (List.range sp'.mesh.NC).mapM (matrix_A_f4 sp') <;> simp

/-- C1 witness: the concrete degree-2 space over the two-triangle mesh. -/
theorem matrix_A_bug_w :
    matrix_A spaceP2 = Except.error "ValueError: matmul shape mismatch" :=
  (matrix_A_bug spaceP2 (by decide) (by decide)).1

/-- C6: `matrix_P()` cannot return the coupling matrix: its per-cell index
builder `f0` evaluates `NE*p` although `matrix_P` never binds `NE`, so the
first cell already raises `NameError`; the dead remainder additionally reads
`self.J[4]` — out of range for the 3-element cached `J`, witnessed by the
second conjunct — and builds the `P2` block's `coo_matrix` from `P1` itself
instead of a `P2` triplet array. -/
theorem matrix_P_bug (sp : RDSpace) (hNC : 1 ≤ sp.mesh.NC) :
    matrix_P sp = Except.error "NameError: name NE is not defined" ∧
    (Jlist sp).get? 4 = none := by
  refine ⟨?_, rfl⟩
  unfold matrix_P
  obtain ⟨n, hn⟩ : ∃ n, sp.mesh.NC = n + 1 := ⟨sp.mesh.NC - 1, by omega⟩
  rw [hn, List.range_succ_eq_map, List.mapM_cons]
  rfl

/-- C6 witness: the concrete degree-2 space over the two-triangle mesh. -/
theorem matrix_P_bug_w :
    matrix_P spaceP2 = Except.error "NameError: name NE is not defined" :=
  (matrix_P_bug spaceP2 (by decide)).1

/-- C7: `source_vector(f)` never returns the load vector: after the per-cell
moment data `bb` is computed, the scatter `b[cell2dof, :] = bb` indexes the
one-dimensional array `b = np.zeros(gdof)` with two indices, which numpy
rejects with `IndexError` for every mesh, degree and forcing data. -/
theorem source_vector_crash (m : PolyMesh) (p : ℕ) (bb : ℕ → ℕ → ℚ) :
    source_vector m p bb =
      Except.error "IndexError: too many indices for array" := rfl

/-- C9 counterexample: with `NQ = 2`, `NC = 3`, a coefficient ndarray of shape
`(2, 3)` is neither a scalar nor of shape `(NC,) = (3,)` nor of shape
`(NC, ldof)` (its leading axis is 2, not 3), yet `assembly_cell_matrix`
finishes without raising: the malformed array is silently consumed by the
catch-all `einsum('q, qc, …')` contraction. -/
theorem assembly_cell_matrix_cex :
    exceptIsOk (assembly_cell_matrix 2 3 wOne1 wOne3 wOne1
      (some (Coef.array [2, 3] (fun _ => 1))) none) = true ∧
    [2, 3] ≠ [3] ∧ ([2, 3] : List ℕ).headD 0 ≠ 3 := by
  refine ⟨?_, by decide, by decide⟩
  rfl

/-- C9 amended: `assembly_cell_matrix` does not validate ndarray coefficient
shapes: shape `(NC,)` gets the dedicated per-cell path, every other ndarray is
handed to the catch-all `einsum('q, qc, …')` contraction, which accepts a
`(NQ, NC)` array without any raise and rejects the rest only through the
contraction itself — in particular the claim-valid shape `(NC, ldof)` raises
there whenever `NC ∉ {1, NQ}`; only a non-scalar non-ndarray coefficient hits
the explicit `ValueError`.  `assembly_cell_matrix_fast` does validate: ndarray
shapes other than `(NC,)` and `(NC, COFldof)` raise `ValueError`
immediately. -/
theorem assembly_coef_validation (NQ NC COFldof Adim : ℕ) (ws : ℕ → ℚ)
    (phi0 : ℕ → ℕ → ℕ → ℚ) (cm : ℕ → ℚ) (dataM dataC : ℕ → ℕ → ℕ → ℚ)
    (d : List ℕ → ℚ) (shape : List ℕ) (ldof : ℕ) :
    exceptIsOk (assembly_cell_matrix NQ NC ws phi0 cm
      (some (Coef.array [NQ, NC] d)) none) = true ∧
    assembly_cell_matrix NQ NC ws phi0 cm (some Coef.other) none =
      Except.error "ValueError: coef is not correct!" ∧
    (shape ≠ [NC] → shape.length ≠ 2 →
      assembly_cell_matrix NQ NC ws phi0 cm (some (Coef.array shape d)) none =
        Except.error "ValueError: einsum operands could not be broadcast") ∧
    (NC ≠ 1 → NC ≠ NQ →
      assembly_cell_matrix NQ NC ws phi0 cm
        (some (Coef.array [NC, ldof] d)) none =
        Except.error "ValueError: einsum operands could not be broadcast") ∧
    (shape ≠ [NC, COFldof] → shape ≠ [NC] →
      assembly_cell_matrix_fast NC COFldof Adim cm dataM dataC
        (some (Coef.array shape d)) none =
        Except.error "ValueError: coef is not correct!") ∧
    assembly_cell_matrix_fast NC COFldof Adim cm dataM dataC
      (some Coef.other) none =
      Except.error "AttributeError: coef object has no attribute shape" := by
  refine ⟨?_, rfl, ?_, ?_, ?_, rfl⟩
  · simp only [assembly_cell_matrix, acm_term]
    rw [if_neg (by simp), if_pos ⟨rfl, Or.inr rfl, Or.inr rfl⟩]
    rfl
  · intro h1 h2
    simp only [assembly_cell_matrix, acm_term]
    rw [if_neg h1, if_neg fun hc => h2 hc.1]
  · intro hNC1 hNCNQ
    simp only [assembly_cell_matrix, acm_term]
    rw [if_neg (by simp), if_neg ?_]
    rintro ⟨_, hor, _⟩
    exact hor.elim hNC1 hNCNQ
  · intro h1 h2
    simp only [assembly_cell_matrix_fast, acmf_term]
    rw [if_neg h1, if_neg h2]

/-- C9 amended witness: an ndarray of shape `(7,)` over a 3-cell mesh raises
from `assembly_cell_matrix`, and the fast assembler rejects it with the
explicit `ValueError`. -/
theorem assembly_coef_validation_w :
    assembly_cell_matrix 2 3 wOne1 wOne3 wOne1
      (some (Coef.array [7] (fun _ => 1))) none =
      Except.error "ValueError: einsum operands could not be broadcast" ∧
    assembly_cell_matrix_fast 3 4 5 wOne1 wOne3 wOne3
      (some (Coef.array [7] (fun _ => 1))) none =
      Except.error "ValueError: coef is not correct!" := by
  have h := assembly_coef_validation 2 3 4 5 wOne1 wOne3 wOne1 wOne3 wOne3
    (fun _ => 1) [7] 9
  exact ⟨h.2.2.1 (by decide) (by decide), h.2.2.2.2.1 (by decide) (by decide)⟩

/-- C10: for both assemblers, whenever the coefficient dispatch produces a
term `T` without raising, a call with `out = None` allocates a fresh
zero-initialised batch, accumulates `T` into it and returns it (the caller's
`out` stays absent), while a call with `out` supplied returns `None` and the
caller's array afterwards holds its pre-existing entries with `T` added —
accumulated, not overwritten. -/
theorem assembly_out_frame (NQ NC COFldof Adim : ℕ) (ws : ℕ → ℚ)
    (phi0 : ℕ → ℕ → ℕ → ℚ) (cm : ℕ → ℚ) (dataM dataC : ℕ → ℕ → ℕ → ℚ)
    (coef : Option Coef) (o : Mat3) :
    (∀ T, acm_term NQ NC ws phi0 cm coef = Except.ok T →
      assembly_cell_matrix NQ NC ws phi0 cm coef none =
        Except.ok (some (fun c i j => 0 + T c i j), none) ∧
      assembly_cell_matrix NQ NC ws phi0 cm coef (some o) =
        Except.ok (none, some (fun c i j => o c i j + T c i j))) ∧
    (∀ T, acmf_term NC COFldof Adim cm dataM dataC coef = Except.ok T →
      assembly_cell_matrix_fast NC COFldof Adim cm dataM dataC coef none =
        Except.ok (some (fun c i j => 0 + T c i j), none) ∧
      assembly_cell_matrix_fast NC COFldof Adim cm dataM dataC coef (some o) =
        Except.ok (none, some (fun c i j => o c i j + T c i j))) := by
  constructor
  · intro T h
    constructor
    · unfold assembly_cell_matrix
      rw [h]
    · unfold assembly_cell_matrix
      rw [h]
  · intro T h
    constructor
    · unfold assembly_cell_matrix_fast
      rw [h]
    · unfold assembly_cell_matrix_fast
      rw [h]

/-- C10 witness: with no coefficient, a call with a supplied `out` returns
`None` and adds the base term into the pre-existing all-one array. -/
theorem assembly_out_frame_w :
    assembly_cell_matrix 1 1 wOne1 wOne3 wOne1 none (some wOne3) =
      Except.ok (none, some fun c i j =>
        wOne3 c i j + acm_base 1 wOne1 wOne3 wOne1 c i j) :=
  ((assembly_out_frame 1 1 1 1 wOne1 wOne3 wOne1 wOne3 wOne3 none wOne3).1
    (acm_base 1 wOne1 wOne3 wOne1) rfl).2
